import Mathlib

/-!
Shallow embedding of the EmuRust PS1 GPU presentation pipeline.

Embedded source units:
* `src/crates/trapezoid-core/src/gpu/vulkan/front_blit.rs` — the `FrontBlit`
  renderer: its GLSL compute shader (24-bit unpack kernel), vertex shader,
  command recording in `blit`, and the R/B-swapped image view.
* `src/src/ps1.rs` — the presentation loop (`render_cycle` / `render_frame`),
  the `InputLatch`, and the window-scale computation.
* `src/src/audio.rs` — the `AudioPlayer` bounded audio queue.

Machine integers are modelled as `Nat`; GLSL bit operations (`>>`, `&`, `|`,
`<<`) become the corresponding `Nat` operations, which agree with the 32-bit
source semantics because every value involved stays below `2 ^ 32`.
GPU buffers are modelled as total functions from (word or byte) index to
contents; GLSL floats in the vertex shader are modelled as rationals (every
value the claims touch is exactly representable).
-/

namespace FrontBlit

/-- Constant `VRAM_WIDTH_WORDS` from front_blit.rs. -/
def VRAM_WIDTH_WORDS : Nat := 1024

/-- Constant `VRAM_HEIGHT` from front_blit.rs. -/
def VRAM_HEIGHT : Nat := 512

/-- Constant `VRAM_BYTES_PER_ROW = VRAM_WIDTH_WORDS * 2` from front_blit.rs. -/
def VRAM_BYTES_PER_ROW : Nat := VRAM_WIDTH_WORDS * 2

/-- Constant `VRAM_WIDTH_24BIT = VRAM_BYTES_PER_ROW / 3` from front_blit.rs. -/
def VRAM_WIDTH_24BIT : Nat := VRAM_BYTES_PER_ROW / 3

/-- Constant `COMPUTE_LOCAL_SIZE_XY` from front_blit.rs. -/
def COMPUTE_LOCAL_SIZE_XY : Nat := 8

namespace cs

/-- GLSL constant `VRAM_WIDTH_WORDS` of the compute shader in `mod cs`. -/
def VRAM_WIDTH_WORDS : Nat := 1024

/-- GLSL constant `VRAM_HEIGHT` of the compute shader. -/
def VRAM_HEIGHT : Nat := 512

/-- GLSL constant `BYTES_PER_ROW = VRAM_WIDTH_WORDS * 2u`. -/
def BYTES_PER_ROW : Nat := VRAM_WIDTH_WORDS * 2

/-- GLSL constant `PIXELS_PER_ROW = BYTES_PER_ROW / 3u`. -/
def PIXELS_PER_ROW : Nat := BYTES_PER_ROW / 3

/-- GLSL `read_byte`: extracts the byte at `byte_index` from the u32 word
array `inImageData.data` (`data[byte_index >> 2] >> ((byte_index & 3) * 8)
& 0xFF`). -/
def read_byte (data : Nat → Nat) (byte_index : Nat) : Nat :=
  let word := data (byte_index >>> 2)
  let shift := (byte_index &&& 3) * 8
  (word >>> shift) &&& 0xFF

/-- GLSL `read_rgb`: the three consecutive bytes starting at `byte_index`. -/
def read_rgb (data : Nat → Nat) (byte_index : Nat) : Nat × Nat × Nat :=
  (read_byte data byte_index,
   read_byte data (byte_index + 1),
   read_byte data (byte_index + 2))

/-- GLSL `pack_color`: `0xFF000000 | (rgb.z << 16) | (rgb.y << 8) | rgb.x`. -/
def pack_color (rgb : Nat × Nat × Nat) : Nat :=
  0xFF000000 ||| (rgb.2.2 <<< 16) ||| (rgb.2.1 <<< 8) ||| rgb.1

/-- GLSL `main` of the compute shader for one invocation at global id
`(x, y)`. Returns `some (index, word)` when the invocation writes `word`
to `outImageData.data[index]`, and `none` when it returns early without
touching either buffer. -/
def csMain (inp : Nat → Nat) (x y : Nat) : Option (Nat × Nat) :=
  if PIXELS_PER_ROW ≤ x ∨ VRAM_HEIGHT ≤ y then
    none
  else
    let base_byte := y * BYTES_PER_ROW + x * 3
    let row_end := (y + 1) * BYTES_PER_ROW
    if row_end ≤ base_byte + 2 then
      none
    else
      some (y * PIXELS_PER_ROW + x, pack_color (read_rgb inp base_byte))

/-- Byte indices of the input buffer read by the invocation at `(x, y)`:
empty when either guard in the shader's `main` makes it return early,
otherwise the three bytes of the triple at `base_byte` (read by
`read_rgb`). -/
def csReads (x y : Nat) : List Nat :=
  if PIXELS_PER_ROW ≤ x ∨ VRAM_HEIGHT ≤ y then
    []
  else
    let base_byte := y * BYTES_PER_ROW + x * 3
    let row_end := (y + 1) * BYTES_PER_ROW
    if row_end ≤ base_byte + 2 then
      []
    else
      [base_byte, base_byte + 1, base_byte + 2]

end cs

/-- Dispatch grid recorded in `FrontBlit::blit`:
`[(VRAM_WIDTH_24BIT + 7) / 8, (VRAM_HEIGHT + 7) / 8, 1]`. -/
def blitDispatchGrid : Nat × Nat × Nat :=
  ((VRAM_WIDTH_24BIT + COMPUTE_LOCAL_SIZE_XY - 1) / COMPUTE_LOCAL_SIZE_XY,
   (VRAM_HEIGHT + COMPUTE_LOCAL_SIZE_XY - 1) / COMPUTE_LOCAL_SIZE_XY,
   1)

/-- All global invocation ids covered by the dispatch grid with the 8×8
local work-group declared by the shader. -/
def gridPoints : List (Nat × Nat) :=
  (List.range (blitDispatchGrid.2.1 * COMPUTE_LOCAL_SIZE_XY)).flatMap fun y =>
    (List.range (blitDispatchGrid.1 * COMPUTE_LOCAL_SIZE_XY)).map fun x => (x, y)

/-- Effect of one shader invocation on the output buffer. -/
def applyInv (inp : Nat → Nat) (out : Nat → Nat) (p : Nat × Nat) : Nat → Nat :=
  match cs.csMain inp p.1 p.2 with
  | none => out
  | some jv => fun i => if i = jv.1 then jv.2 else out i

/-- One full run of the format-conversion kernel over the dispatch grid:
every invocation's write applied to the initial output buffer `out0`.
Invocation order is immaterial because distinct invocations write distinct
indices, which the theorems below prove. -/
def kernelRun (inp out0 : Nat → Nat) : Nat → Nat :=
  gridPoints.foldl (applyInv inp) out0

/-- Test input for the kernel: a packed buffer whose byte `i` equals
`i % 256` (the spec's sequential-byte scenario), assembled into the
little-endian u32 words the shader's `read_byte` addresses. -/
def seqWords (j : Nat) : Nat :=
  (4 * j) % 256 + ((4 * j + 1) % 256) * 256 + ((4 * j + 2) % 256) * 65536 +
    ((4 * j + 3) % 256) * 16777216

/-- Commands recorded into the one command buffer built by
`FrontBlit::blit`, in recording order. -/
inductive Cmd where
  | copyImageToBuffer
  | bindPipelineCompute
  | bindDescriptorSetsCompute
  | dispatch (grid : Nat × Nat × Nat)
  | copyBufferToImage
  | beginRenderPass
  | setViewport (w h : Nat)
  | bindPipelineGraphics
  | bindDescriptorSetsGraphics
  | pushConstants (topleft size extent : Nat × Nat)
  | bindVertexBuffers
  | draw (vertices instances : Nat)
  | endRenderPass
  deriving DecidableEq

/-- Which image the sampled-image view of the draw is built over. -/
inductive SourceSel where
  | vram
  | staging
  deriving DecidableEq

/-- Command stream recorded by `FrontBlit::blit` for one call: the 24-bit
branch (image→buffer copy, compute bind+dispatch, buffer→image copy) when
`is_24bit` is set, followed by the render pass recording. -/
def blitCmds (is_24bit : Bool) (destW destH : Nat)
    (topleft size extent : Nat × Nat) : List Cmd :=
  (if is_24bit then
    [Cmd.copyImageToBuffer, Cmd.bindPipelineCompute, Cmd.bindDescriptorSetsCompute,
     Cmd.dispatch blitDispatchGrid, Cmd.copyBufferToImage]
  else []) ++
  [Cmd.beginRenderPass, Cmd.setViewport destW destH, Cmd.bindPipelineGraphics,
   Cmd.bindDescriptorSetsGraphics, Cmd.bindDescriptorSetsGraphics,
   Cmd.pushConstants topleft size extent, Cmd.bindVertexBuffers,
   Cmd.draw 4 1, Cmd.endRenderPass]

/-- Source image selected for the draw's sampled view: `blit` starts from
`self.texture_image` and replaces it with `self.texture_24bit_image` only
inside the `is_24bit_color_depth` branch. -/
def blitSourceSel (is_24bit : Bool) : SourceSel :=
  if is_24bit then SourceSel.staging else SourceSel.vram

/-- Persistent GPU contents owned or referenced by `FrontBlit`:
`texture_image` (the VRAM image, as its byte stream), the staging image
`texture_24bit_image` and the two compute buffers (as u32 word streams). -/
structure FrontBlitState where
  texture_image : Nat → Nat
  texture_24bit_image : Nat → Nat
  texture_24bit_in_buffer : Nat → Nat
  texture_24bit_out_buffer : Nat → Nat

/-- Assemble a byte stream into little-endian u32 words, the semantics of
the `copy_image_to_buffer` transfer feeding the compute kernel. -/
def wordsOfBytes (bytes : Nat → Nat) : Nat → Nat := fun j =>
  bytes (4 * j) ||| (bytes (4 * j + 1) <<< 8) ||| (bytes (4 * j + 2) <<< 16) |||
    (bytes (4 * j + 3) <<< 24)

/-- Effect of one `blit` call on the `FrontBlit`-owned contents: the 24-bit
branch copies the VRAM image into the input buffer, runs the kernel into
the output buffer, and copies that into the staging image; otherwise
nothing is touched. -/
def blitExec (s : FrontBlitState) (is_24bit : Bool) : FrontBlitState :=
  if is_24bit then
    let inBuf := wordsOfBytes s.texture_image
    let outBuf := kernelRun inBuf s.texture_24bit_out_buffer
    { s with
      texture_24bit_in_buffer := inBuf
      texture_24bit_out_buffer := outBuf
      texture_24bit_image := outBuf }
  else s

/-- Content sampled by the draw recorded in the same `blit` call: the
selected source image's contents after the recorded transfers ran. -/
def blitSampled (s : FrontBlitState) (is_24bit : Bool) : Nat → Nat :=
  match blitSourceSel is_24bit with
  | SourceSel.vram => (blitExec s is_24bit).texture_image
  | SourceSel.staging => (blitExec s is_24bit).texture_24bit_image

/-- Channels `(R, G, B, A)` of a `B8G8R8A8_UNORM` texel whose backing u32
word (little-endian) is `w`. Modelled from the Vulkan format definition:
memory byte 0 is B, byte 1 is G, byte 2 is R, byte 3 is A. -/
def b8g8r8a8Channels (w : Nat) : Nat × Nat × Nat × Nat :=
  ((w >>> 16) &&& 0xFF, (w >>> 8) &&& 0xFF, w &&& 0xFF, (w >>> 24) &&& 0xFF)

/-- The `ComponentMapping` of the sampled-image view built in `blit`:
view red reads image Blue, view blue reads image Red, green and alpha are
identity. Input and output are `(R, G, B, A)` quadruples. -/
def rbSwapView (c : Nat × Nat × Nat × Nat) : Nat × Nat × Nat × Nat :=
  (c.2.2.1, c.2.1, c.1, c.2.2.2)

/-- Sampling one texel whose backing word is `w` through the R/B-swapped
view over the `B8G8R8A8_UNORM` image. -/
def sampleThroughView (w : Nat) : Nat × Nat × Nat × Nat :=
  rbSwapView (b8g8r8a8Channels w)

/-- Push-constant block of the vertex shader (`PushConstantData`). -/
structure PushConstantData where
  topleft : Nat × Nat
  size : Nat × Nat
  extent : Nat × Nat

/-- GLSL vertex shader `main`, texture-coordinate output: `tex_coords =
(position + 1) / 2`, then `tex_coords * (size / extent) + topleft / extent`
componentwise, over exact rational arithmetic. -/
def vsTexCoords (pc : PushConstantData) (position : ℚ × ℚ) : ℚ × ℚ :=
  let inv_extent : ℚ × ℚ := ((pc.extent.1 : ℚ), (pc.extent.2 : ℚ))
  let topleft : ℚ × ℚ := ((pc.topleft.1 : ℚ) / inv_extent.1, (pc.topleft.2 : ℚ) / inv_extent.2)
  let size : ℚ × ℚ := ((pc.size.1 : ℚ) / inv_extent.1, (pc.size.2 : ℚ) / inv_extent.2)
  let t : ℚ × ℚ := ((position.1 + 1) / 2, (position.2 + 1) / 2)
  (t.1 * size.1 + topleft.1, t.2 * size.2 + topleft.2)

/-- GLSL vertex shader `main`, `gl_Position` output: `vec4(position, 0, 1)`. -/
def vsGlPos (position : ℚ × ℚ) : ℚ × ℚ × ℚ × ℚ :=
  (position.1, position.2, 0, 1)

/-- The four quad vertices of `vertex_buffer`, in buffer order. -/
def vertexPositions : List (ℚ × ℚ) :=
  [(-1, -1), (-1, 1), (1, -1), (1, 1)]

end FrontBlit

namespace Ps1

/-- Observable actions of one presentation-loop iteration of
`Ps1App::render_cycle` / `render_frame` in src/src/ps1.rs, in program
order. `advanceCore` is `psx.clock_full_video_frame()`, `drainAudio` is
`psx.take_audio_buffer()` (plus the conditional `audio.push_samples`). -/
inductive Ev where
  | syncInputs
  | advanceCore
  | drainAudio
  | recreateSwapchain
  | acquire
  | blit
  | present
  | submit
  deriving DecidableEq

/-- Outcome of `swapchain::acquire_next_image`, as matched in
`render_frame`. -/
inductive AcquireOutcome where
  | success (suboptimal : Bool)
  | outOfDate
  | failure
  deriving DecidableEq

/-- Outcome of `then_signal_fence_and_flush`, as matched in
`render_frame`. -/
inductive SubmitOutcome where
  | success
  | outOfDate
  | failure
  deriving DecidableEq

/-- The loop state `render_frame` reads and writes: whether a render
context exists, the `recreate_swapchain` flag, and a generation counter
bumped by each `Swapchain::recreate`. -/
structure LoopState where
  hasRenderContext : Bool
  recreateSwapchain : Bool
  swapchainGeneration : Nat
  deriving DecidableEq

/-- Result of one call: updated state, emitted events in order, and
whether an error was returned to the caller. -/
structure StepOut where
  state : LoopState
  events : List Ev
  fatal : Bool
  deriving DecidableEq

/-- Shallow embedding of `Ps1App::render_frame`. The swapchain is
recreated first when the flag is set; the acquire outcome then either
continues into blit/present/submit, or (out-of-date) sets the flag and
returns `Ok(())`, or is a fatal error. A suboptimal acquire flags
recreation but proceeds. An out-of-date submit flags recreation and is
swallowed. -/
def render_frame (s : LoopState) (acq : AcquireOutcome) (sub : SubmitOutcome) : StepOut :=
  if s.hasRenderContext = false then
    ⟨s, [], false⟩
  else
    let s1 : LoopState :=
      if s.recreateSwapchain then
        { s with recreateSwapchain := false, swapchainGeneration := s.swapchainGeneration + 1 }
      else s
    let tr1 : List Ev := if s.recreateSwapchain then [Ev.recreateSwapchain] else []
    match acq with
    | AcquireOutcome.outOfDate =>
        ⟨{ s1 with recreateSwapchain := true }, tr1 ++ [Ev.acquire], false⟩
    | AcquireOutcome.failure =>
        ⟨s1, tr1 ++ [Ev.acquire], true⟩
    | AcquireOutcome.success subopt =>
        let s2 : LoopState := if subopt then { s1 with recreateSwapchain := true } else s1
        match sub with
        | SubmitOutcome.success =>
            ⟨s2, tr1 ++ [Ev.acquire, Ev.blit, Ev.present, Ev.submit], false⟩
        | SubmitOutcome.outOfDate =>
            ⟨{ s2 with recreateSwapchain := true },
             tr1 ++ [Ev.acquire, Ev.blit, Ev.present, Ev.submit], false⟩
        | SubmitOutcome.failure =>
            ⟨s2, tr1 ++ [Ev.acquire, Ev.blit, Ev.present, Ev.submit], true⟩

/-- Shallow embedding of `Ps1App::render_cycle`: input sync, one full
video frame of core emulation, the audio drain, then `render_frame`. -/
def render_cycle (s : LoopState) (acq : AcquireOutcome) (sub : SubmitOutcome) : StepOut :=
  if s.hasRenderContext = false then
    ⟨s, [], false⟩
  else
    let out := render_frame s acq sub
    ⟨out.state, Ev.syncInputs :: Ev.advanceCore :: Ev.drainAudio :: out.events, out.fatal⟩

/-- Constant `DIGITAL_KEY_COUNT` (`DigitalControllerKey::Square as usize + 1`). -/
def DIGITAL_KEY_COUNT : Nat := 16

/-- Constant `INPUT_SOURCE_COUNT`. -/
def INPUT_SOURCE_COUNT : Nat := 2

/-- The `DIGITAL_KEYS` array: every digital controller key exactly once,
indexed by its enum discriminant. -/
def digitalKeys : List (Fin 16) := List.finRange 16

/-- The `InputLatch` of src/src/ps1.rs: per-source pressed state and the
combined (OR) state last reported to the core. -/
structure InputLatch where
  sources : Fin 2 → Fin 16 → Bool
  combined : Fin 16 → Bool

/-- `InputLatch::new`. -/
def InputLatch.new : InputLatch :=
  ⟨fun _ _ => false, fun _ => false⟩

/-- The source array after `self.sources[source.idx()][idx] = pressed`. -/
def InputLatch.setSources (l : InputLatch) (source : Fin 2) (key : Fin 16)
    (pressed : Bool) : Fin 2 → Fin 16 → Bool :=
  fun s k => if s = source ∧ k = key then pressed else l.sources s k

/-- `InputLatch::set`: store the source's state, recompute the OR over all
sources for this key, and when it differs from the latched combined value,
latch it and call `psx.change_controller_key_state(key, next)` — the
second component is `some (key, next)` exactly for that call. -/
def InputLatch.set (l : InputLatch) (source : Fin 2) (key : Fin 16) (pressed : Bool) :
    InputLatch × Option (Fin 16 × Bool) :=
  let sources := l.setSources source key pressed
  let next := sources 0 key || sources 1 key
  if next ≠ l.combined key then
    (⟨sources, fun k => if k = key then next else l.combined k⟩, some (key, next))
  else
    (⟨sources, l.combined⟩, none)

/-- `InputLatch::clear_source`: `set source key false` for every key of
`DIGITAL_KEYS`, collecting the notifications made to the core in order. -/
def InputLatch.clear_source (l : InputLatch) (source : Fin 2) :
    InputLatch × List (Fin 16 × Bool) :=
  digitalKeys.foldl
    (fun a key =>
      let r := a.1.set source key false
      (r.1, a.2 ++ r.2.toList))
    (l, [])

/-- Invariant relating the latch fields: the combined state is the OR of
the per-source states (holds for `InputLatch::new` and is preserved by
`set`). -/
def InputLatch.inv (l : InputLatch) : Prop :=
  ∀ k, l.combined k = (l.sources 0 k || l.sources 1 k)

/-- The OR over both sources of `key`'s pressed state right after `set`
stores `pressed` — the `next` value `InputLatch::set` computes. -/
def InputLatch.orAfter (l : InputLatch) (source : Fin 2) (key : Fin 16)
    (pressed : Bool) : Bool :=
  l.setSources source key pressed 0 key || l.setSources source key pressed 1 key

/-- Constant `DEFAULT_WIDTH`. -/
def DEFAULT_WIDTH : Nat := 640

/-- Constant `DEFAULT_HEIGHT`. -/
def DEFAULT_HEIGHT : Nat := 480

/-- Largest `u32` value, the saturation bound of `u32::saturating_mul`. -/
def U32_MAX : Nat := 2 ^ 32 - 1

/-- `u32::saturating_mul` on the mathematical integers. -/
def saturating_mul_u32 (a b : Nat) : Nat :=
  min (a * b) U32_MAX

/-- The scale stored into `Ps1App` by `run`: `scale.max(1)`. -/
def runStoredScale (scale : Nat) : Nat :=
  max scale 1

/-- Window inner size computed by `Ps1App::init_window` from the stored
scale: `DEFAULT_WIDTH.saturating_mul(self.scale.max(1))` and likewise for
the height. -/
def initWindowSize (storedScale : Nat) : Nat × Nat :=
  (saturating_mul_u32 DEFAULT_WIDTH (max storedScale 1),
   saturating_mul_u32 DEFAULT_HEIGHT (max storedScale 1))

/-- End-to-end window size for the `scale` argument given to `run`. -/
def ps1WindowSize (scale : Nat) : Nat × Nat :=
  initWindowSize (runStoredScale scale)

end Ps1

namespace Audio

/-- Constant `MAX_BUFFER_BYTES = 44_100 * 2 * 4` from
`AudioPlayer::push_samples`. -/
def MAX_BUFFER_BYTES : Nat := 44100 * 2 * 4

/-- The `AudioPlayer`'s observable queue state: `queue.size()` in bytes. -/
structure AudioPlayer where
  queuedBytes : Nat
  deriving DecidableEq

/-- `AudioPlayer::push_samples` for `sampleCount` f32 samples (4 bytes
each): enqueue (unless the SDL call errs, in which case the error is
printed and the queue is unchanged), then clear the whole queue when more
than `MAX_BUFFER_BYTES` are buffered. Always returns — never blocks. -/
def AudioPlayer.push_samples (p : AudioPlayer) (sampleCount : Nat) (queueOk : Bool) :
    AudioPlayer :=
  let q := if queueOk then p.queuedBytes + 4 * sampleCount else p.queuedBytes
  if MAX_BUFFER_BYTES < q then ⟨0⟩ else ⟨q⟩

end Audio

namespace FrontBlit

/-- Every invocation id `(x, y)` with `x < 688`, `y < 512` is covered by
the dispatch grid. -/
theorem mem_gridPoints (x y : Nat) (hx : x < 688) (hy : y < 512) :
    (x, y) ∈ gridPoints := by
  simp only [gridPoints, List.mem_flatMap, List.mem_map, List.mem_range]
  exact ⟨y,
    by norm_num [blitDispatchGrid, VRAM_HEIGHT, COMPUTE_LOCAL_SIZE_XY]; omega,
    x,
    by norm_num [blitDispatchGrid, VRAM_WIDTH_24BIT, VRAM_BYTES_PER_ROW,
        VRAM_WIDTH_WORDS, COMPUTE_LOCAL_SIZE_XY]; omega,
    rfl⟩

/-- Any invocation that writes the output index `y * 682 + x` (for
`x < 682`, `y < 512`) writes the packed triple at `y * 2048 + x * 3`. -/
theorem csMain_write_unique (inp : Nat → Nat) (x y : Nat) (hx : x < 682) :
    ∀ p : Nat × Nat, ∀ w : Nat × Nat,
      cs.csMain inp p.1 p.2 = some w → w.1 = y * 682 + x →
      w.2 = cs.pack_color (cs.read_rgb inp (y * 2048 + x * 3)) := by
  rintro ⟨x', y'⟩ ⟨j, v⟩ hsome hj
  simp only [cs.csMain] at hsome
  split at hsome
  · exact absurd hsome (by simp)
  · next hguard =>
    push_neg at hguard
    have hx' : x' < 682 := by
      have := hguard.1
      norm_num [cs.PIXELS_PER_ROW, cs.BYTES_PER_ROW, cs.VRAM_WIDTH_WORDS] at this
      omega
    split at hsome
    · exact absurd hsome (by simp)
    · simp only [Option.some.injEq, Prod.mk.injEq] at hsome
      obtain ⟨hidx, hv⟩ := hsome
      simp only at hj ⊢
      rw [← hidx] at hj
      norm_num [cs.PIXELS_PER_ROW, cs.BYTES_PER_ROW, cs.VRAM_WIDTH_WORDS] at hj
      have hxeq : x' = x := by omega
      have hyeq : y' = y := by omega
      rw [← hv, hxeq, hyeq]
      norm_num [cs.BYTES_PER_ROW, cs.VRAM_WIDTH_WORDS]

/-- Folding invocations that can only ever write value `v` at index `i`
keeps an accumulator that already holds `v` at `i`. -/
theorem foldl_keep (inp : Nat → Nat) (i v : Nat) :
    ∀ (l : List (Nat × Nat)) (acc : Nat → Nat),
      (∀ p ∈ l, ∀ w : Nat × Nat,
        cs.csMain inp p.1 p.2 = some w → w.1 = i → w.2 = v) →
      acc i = v →
      (l.foldl (applyInv inp) acc) i = v := by
  intro l
  induction l with
  | nil => intro acc _ hacc; simpa using hacc
  | cons q l ih =>
    intro acc hval hacc
    simp only [List.foldl_cons]
    refine ih _ (fun p hp => hval p (List.mem_cons_of_mem _ hp)) ?_
    unfold applyInv
    cases hq : cs.csMain inp q.1 q.2 with
    | none => exact hacc
    | some w =>
      by_cases hi : i = w.1
      · simp only [if_pos hi]
        exact (hval q (List.mem_cons_self _ _) w hq hi.symm).symm ▸ rfl
      · simp only [if_neg hi]; exact hacc

/-- If some invocation of the list writes `(i, v)` and every invocation
can only ever write value `v` at index `i`, the fold ends with `v` at
`i`. -/
theorem foldl_hit (inp : Nat → Nat) (i v : Nat) :
    ∀ (l : List (Nat × Nat)) (acc : Nat → Nat) (p : Nat × Nat),
      p ∈ l →
      cs.csMain inp p.1 p.2 = some (i, v) →
      (∀ q ∈ l, ∀ w : Nat × Nat,
        cs.csMain inp q.1 q.2 = some w → w.1 = i → w.2 = v) →
      (l.foldl (applyInv inp) acc) i = v := by
  intro l
  induction l with
  | nil => intro acc p hp; exact absurd hp (List.not_mem_nil p)
  | cons q l ih =>
    intro acc p hp hw hval
    rcases List.mem_cons.mp hp with hpq | hpl
    · subst hpq
      simp only [List.foldl_cons]
      refine foldl_keep inp i v l _ (fun r hr => hval r (List.mem_cons_of_mem _ hr)) ?_
      unfold applyInv
      rw [hw]
      simp
    · simp only [List.foldl_cons]
      exact ih _ p hpl hw (fun r hr => hval r (List.mem_cons_of_mem _ hr))

/-- Characterization of one kernel run at an in-range output index. -/
theorem kernelRun_char (inp out0 : Nat → Nat) (x y : Nat)
    (hx : x < 682) (hy : y < 512) :
    kernelRun inp out0 (y * 682 + x) =
      cs.pack_color (cs.read_rgb inp (y * 2048 + x * 3)) := by
  have hwrite : cs.csMain inp x y =
      some (y * 682 + x, cs.pack_color (cs.read_rgb inp (y * 2048 + x * 3))) := by
    unfold cs.csMain
    rw [if_neg, if_neg]
    · norm_num [cs.PIXELS_PER_ROW, cs.BYTES_PER_ROW, cs.VRAM_WIDTH_WORDS]
    · norm_num [cs.BYTES_PER_ROW, cs.VRAM_WIDTH_WORDS]; omega
    · push_neg
      norm_num [cs.PIXELS_PER_ROW, cs.BYTES_PER_ROW, cs.VRAM_WIDTH_WORDS,
        cs.VRAM_HEIGHT]
      omega
  exact foldl_hit inp _ _ gridPoints out0 (x, y)
    (mem_gridPoints x y (by omega) hy) hwrite
    (fun q _ => csMain_write_unique inp x y hx q)

end FrontBlit

namespace FrontBlit

/-- An `or` against a value below `2 ^ k` of a multiple of `2 ^ k` is
addition. -/
theorem lor_pow_eq_add (k a c : Nat) (hc : c < 2 ^ k) :
    (2 ^ k * a) ||| c = 2 ^ k * a + c :=
  (Nat.mul_add_lt_is_or hc a).symm

/-- The shader's `read_byte` always yields a byte value. -/
theorem read_byte_lt (data : Nat → Nat) (i : Nat) : cs.read_byte data i < 256 := by
  unfold cs.read_byte
  have h := Nat.and_pow_two_sub_one_eq_mod
    ((data (i >>> 2)) >>> ((i &&& 3) * 8)) 8
  norm_num at h
  simp only [h]
  exact Nat.mod_lt _ (by norm_num)

/-- On byte values the packing `0xFF000000 | (b << 16) | (g << 8) | r` is
plain positional addition. -/
theorem pack_color_eq_add (r g b : Nat) (hr : r < 256) (hg : g < 256) (hb : b < 256) :
    cs.pack_color (r, g, b) = 0xFF000000 + b * 65536 + g * 256 + r := by
  unfold cs.pack_color
  simp only [Nat.shiftLeft_eq]
  have e1 : (0xFF000000 : Nat) = 2 ^ 24 * 255 := by norm_num
  have h1 : (0xFF000000 : Nat) ||| b * 2 ^ 16 = 0xFF000000 + b * 65536 := by
    rw [e1, lor_pow_eq_add 24 255 (b * 2 ^ 16) (by norm_num; omega)]
    norm_num
  have h2 : (0xFF000000 + b * 65536 : Nat) ||| g * 2 ^ 8 =
      0xFF000000 + b * 65536 + g * 256 := by
    have e2 : (0xFF000000 : Nat) + b * 65536 = 2 ^ 16 * (65280 + b) := by
      norm_num
      omega
    rw [e2, lor_pow_eq_add 16 (65280 + b) (g * 2 ^ 8) (by norm_num; omega)]
    norm_num
  have h3 : (0xFF000000 + b * 65536 + g * 256 : Nat) ||| r =
      0xFF000000 + b * 65536 + g * 256 + r := by
    have e3 : (0xFF000000 : Nat) + b * 65536 + g * 256 =
        2 ^ 8 * (16711680 + b * 256 + g) := by
      norm_num
      omega
    rw [e3, lor_pow_eq_add 8 (16711680 + b * 256 + g) r (by norm_num; omega)]
  simp only at h1 h2 h3 ⊢
  rw [h1, h2, h3]

/-- Sampling a packed word through the R/B-swapped view of the
`B8G8R8A8_UNORM` staging image recovers the original `(R, G, B)` order
with full alpha. -/
theorem sampleThroughView_pack (r g b : Nat) (hr : r < 256) (hg : g < 256)
    (hb : b < 256) :
    sampleThroughView (cs.pack_color (r, g, b)) = (r, g, b, 0xFF) := by
  have hw := pack_color_eq_add r g b hr hg hb
  unfold sampleThroughView b8g8r8a8Channels rbSwapView
  simp only [hw]
  have d16 : (0xFF000000 + b * 65536 + g * 256 + r : Nat) >>> 16 &&& 0xFF = b := by
    rw [Nat.shiftRight_eq_div_pow]
    have h := Nat.and_pow_two_sub_one_eq_mod
      ((0xFF000000 + b * 65536 + g * 256 + r : Nat) / 2 ^ 16) 8
    norm_num at h ⊢
    omega
  have d8 : (0xFF000000 + b * 65536 + g * 256 + r : Nat) >>> 8 &&& 0xFF = g := by
    rw [Nat.shiftRight_eq_div_pow]
    have h := Nat.and_pow_two_sub_one_eq_mod
      ((0xFF000000 + b * 65536 + g * 256 + r : Nat) / 2 ^ 8) 8
    norm_num at h ⊢
    omega
  have d0 : (0xFF000000 + b * 65536 + g * 256 + r : Nat) &&& 0xFF = r := by
    have h := Nat.and_pow_two_sub_one_eq_mod
      (0xFF000000 + b * 65536 + g * 256 + r : Nat) 8
    norm_num at h ⊢
    omega
  have d24 : (0xFF000000 + b * 65536 + g * 256 + r : Nat) >>> 24 &&& 0xFF = 0xFF := by
    rw [Nat.shiftRight_eq_div_pow]
    have h := Nat.and_pow_two_sub_one_eq_mod
      ((0xFF000000 + b * 65536 + g * 256 + r : Nat) / 2 ^ 24) 8
    norm_num at h ⊢
    omega
  rw [d16, d8, d0, d24]

end FrontBlit

/-- C1: for a packed input laid out as 512 scanlines of 2048 bytes, one
run of the format-conversion kernel writes output word `y * 682 + x`
(for `x < 682`, `y < 512`, triple within its scanline) equal to
`0xFF000000 | (b2 << 16) | (b1 << 8) | b0` with `b0, b1, b2` the input
bytes at `base`, `base + 1`, `base + 2`, `base = y * 2048 + 3 * x`. -/
theorem C1_kernel_unpack (inp out0 : Nat → Nat) (x y : Nat)
    (hx : x < 682) (hy : y < 512)
    (hfit : y * 2048 + 3 * x + 2 < (y + 1) * 2048) :
    FrontBlit.kernelRun inp out0 (y * 682 + x) =
      0xFF000000 |||
        (FrontBlit.cs.read_byte inp (y * 2048 + 3 * x + 2) <<< 16) |||
        (FrontBlit.cs.read_byte inp (y * 2048 + 3 * x + 1) <<< 8) |||
        FrontBlit.cs.read_byte inp (y * 2048 + 3 * x) := by
  rw [FrontBlit.kernelRun_char inp out0 x y hx hy]
  unfold FrontBlit.cs.pack_color FrontBlit.cs.read_rgb
  rw [Nat.mul_comm x 3]

/-- Witness for C1: the spec's sequential-byte scenario. Pixel (0, 0) of
the run is `0xFF020100`, and pixel (3, 0) is packed from the bytes at
offsets 9, 10, 11 of its row (bytes 9, 10, 11, giving `0xFF0B0A09`). -/
theorem C1_kernel_unpack_witness :
    FrontBlit.kernelRun FrontBlit.seqWords (fun _ => 0) (0 * 682 + 0) = 0xFF020100 ∧
    FrontBlit.kernelRun FrontBlit.seqWords (fun _ => 0) (0 * 682 + 3) = 0xFF0B0A09 := by
  constructor
  · rw [C1_kernel_unpack FrontBlit.seqWords (fun _ => 0) 0 0 (by norm_num)
      (by norm_num) (by norm_num)]
    decide
  · rw [C1_kernel_unpack FrontBlit.seqWords (fun _ => 0) 3 0 (by norm_num)
      (by norm_num) (by norm_num)]
    decide

/-- C2: an invocation whose coordinate is out of range or whose triple
would cross its scanline performs no read and no write (its output word
keeps its prior value), and every read or write any invocation performs
stays inside the invocation's scanline and inside a correctly sized
buffer (512 × 2048 input bytes, 512 × 682 output words). -/
theorem C2_kernel_bounds (inp out : Nat → Nat) (x y : Nat) :
    ((682 ≤ x ∨ 512 ≤ y ∨ (y + 1) * 2048 ≤ y * 2048 + 3 * x + 2) →
      FrontBlit.cs.csMain inp x y = none ∧
      FrontBlit.cs.csReads x y = [] ∧
      FrontBlit.applyInv inp out (x, y) = out) ∧
    (∀ b ∈ FrontBlit.cs.csReads x y,
      y * 2048 ≤ b ∧ b < (y + 1) * 2048 ∧ b < 512 * 2048) ∧
    (∀ j v, FrontBlit.cs.csMain inp x y = some (j, v) → j < 512 * 682) := by
  refine ⟨?_, ?_, ?_⟩
  · intro hguard
    have hnone : FrontBlit.cs.csMain inp x y = none := by
      unfold FrontBlit.cs.csMain
      norm_num [FrontBlit.cs.PIXELS_PER_ROW, FrontBlit.cs.BYTES_PER_ROW,
        FrontBlit.cs.VRAM_WIDTH_WORDS, FrontBlit.cs.VRAM_HEIGHT]
      intro hx hy
      omega
    refine ⟨hnone, ?_, ?_⟩
    · unfold FrontBlit.cs.csReads
      norm_num [FrontBlit.cs.PIXELS_PER_ROW, FrontBlit.cs.BYTES_PER_ROW,
        FrontBlit.cs.VRAM_WIDTH_WORDS, FrontBlit.cs.VRAM_HEIGHT]
      intro hx hy
      omega
    · unfold FrontBlit.applyInv
      rw [hnone]
  · intro b hb
    simp only [FrontBlit.cs.csReads] at hb
    split at hb
    · simp at hb
    · next hguard =>
      push_neg at hguard
      have hx : x < 682 := by
        have := hguard.1
        norm_num [FrontBlit.cs.PIXELS_PER_ROW, FrontBlit.cs.BYTES_PER_ROW,
          FrontBlit.cs.VRAM_WIDTH_WORDS] at this
        omega
      have hy : y < 512 := by
        have := hguard.2
        norm_num [FrontBlit.cs.VRAM_HEIGHT] at this
        omega
      split at hb
      · simp at hb
      · simp only [List.mem_cons, List.not_mem_nil, or_false] at hb
        norm_num [FrontBlit.cs.BYTES_PER_ROW, FrontBlit.cs.VRAM_WIDTH_WORDS] at hb
        rcases hb with h | h | h <;> subst h <;>
          refine ⟨by omega, by omega, by omega⟩
  · intro j v hsome
    simp only [FrontBlit.cs.csMain] at hsome
    split at hsome
    · exact absurd hsome (by simp)
    · next hguard =>
      push_neg at hguard
      have hx : x < 682 := by
        have := hguard.1
        norm_num [FrontBlit.cs.PIXELS_PER_ROW, FrontBlit.cs.BYTES_PER_ROW,
          FrontBlit.cs.VRAM_WIDTH_WORDS] at this
        omega
      have hy : y < 512 := by
        have := hguard.2
        norm_num [FrontBlit.cs.VRAM_HEIGHT] at this
        omega
      split at hsome
      · exact absurd hsome (by simp)
      · simp only [Option.some.injEq, Prod.mk.injEq] at hsome
        obtain ⟨hidx, _⟩ := hsome
        rw [← hidx]
        norm_num [FrontBlit.cs.PIXELS_PER_ROW, FrontBlit.cs.BYTES_PER_ROW,
          FrontBlit.cs.VRAM_WIDTH_WORDS]
        omega

/-- Witness for C2: the first out-of-range column (682, 0) does nothing,
and the reads of the in-range invocation (0, 0) are inside its row. -/
theorem C2_kernel_bounds_witness :
    FrontBlit.cs.csMain FrontBlit.seqWords 682 0 = none ∧
    FrontBlit.cs.csReads 682 0 = [] ∧
    FrontBlit.applyInv FrontBlit.seqWords (fun _ => 0) (682, 0) = (fun _ => 0) ∧
    ((0 : Nat) * 2048 ≤ 2 ∧ 2 < (0 + 1) * 2048 ∧ 2 < 512 * 2048) := by
  have h := C2_kernel_bounds FrontBlit.seqWords (fun _ => 0) 682 0
  have hne := (h.1 (Or.inl (by norm_num)))
  have h2 := C2_kernel_bounds FrontBlit.seqWords (fun _ => 0) 0 0
  exact ⟨hne.1, hne.2.1, hne.2.2, h2.2.1 2 (by decide)⟩

/-- C4: for a packed input whose first triple is complete, unpacking with
the format-conversion kernel and sampling the resulting word through the
blit renderer's R/B-swapped image view yields the original logical
`(R, G, B)` channel order (with forced full alpha): the deliberate swap
cancels the kernel's BGR packing. -/
theorem C4_roundtrip_rb_swap (inp out0 : Nat → Nat) :
    FrontBlit.sampleThroughView (FrontBlit.kernelRun inp out0 0) =
      (FrontBlit.cs.read_byte inp 0, FrontBlit.cs.read_byte inp 1,
       FrontBlit.cs.read_byte inp 2, 0xFF) := by
  have h := FrontBlit.kernelRun_char inp out0 0 0 (by norm_num) (by norm_num)
  norm_num at h
  rw [h]
  unfold FrontBlit.cs.read_rgb
  norm_num
  exact FrontBlit.sampleThroughView_pack _ _ _
    (FrontBlit.read_byte_lt inp 0) (FrontBlit.read_byte_lt inp 1)
    (FrontBlit.read_byte_lt inp 2)

/-- C5: a `blit` call with `is_24bit = false` samples the VRAM image
directly and unchanged — no copy, dispatch or staging-image write is
recorded, no `FrontBlit`-owned contents change, and two consecutive calls
with unchanged VRAM content sample bit-identical content. -/
theorem C5_16bit_passthrough (s : FrontBlit.FrontBlitState) (w h : Nat)
    (tl sz ex : Nat × Nat) :
    FrontBlit.blitExec s false = s ∧
    FrontBlit.blitSourceSel false = FrontBlit.SourceSel.vram ∧
    FrontBlit.blitSampled s false = s.texture_image ∧
    (∀ c ∈ FrontBlit.blitCmds false w h tl sz ex,
      c ≠ FrontBlit.Cmd.copyImageToBuffer ∧
      c ≠ FrontBlit.Cmd.copyBufferToImage ∧
      ∀ g, c ≠ FrontBlit.Cmd.dispatch g) ∧
    FrontBlit.blitSampled (FrontBlit.blitExec s false) false =
      FrontBlit.blitSampled s false := by
  refine ⟨rfl, rfl, rfl, ?_, rfl⟩
  intro c hc
  simp only [FrontBlit.blitCmds, Bool.false_eq_true, if_false, List.nil_append,
    List.mem_cons, List.not_mem_nil, or_false] at hc
  rcases hc with rfl | rfl | rfl | rfl | rfl | rfl | rfl | rfl | rfl <;>
    exact ⟨by simp, by simp, fun g => by simp⟩

/-- Witness for C5: with a concrete state the draw command recorded in the
16-bit path is none of the staging commands, and the passthrough equations
hold. -/
theorem C5_16bit_passthrough_witness :
    FrontBlit.Cmd.draw 4 1 ≠ FrontBlit.Cmd.copyImageToBuffer ∧
    FrontBlit.Cmd.draw 4 1 ≠ FrontBlit.Cmd.copyBufferToImage ∧
    ∀ g, FrontBlit.Cmd.draw 4 1 ≠ FrontBlit.Cmd.dispatch g :=
  (C5_16bit_passthrough ⟨fun _ => 0, fun _ => 0, fun _ => 0, fun _ => 0⟩
      1 1 (0, 0) (0, 0) (0, 0)).2.2.2.1
    (FrontBlit.Cmd.draw 4 1) (by decide)

/-- C6: a `blit` call with `is_24bit = true` records, in command-stream
order in one command buffer: the VRAM-image→packed-buffer copy, the
compute dispatch with grid exactly `(ceil(682/8), ceil(512/8), 1) =
(86, 64, 1)` for the 8×8 local work-group, the unpacked-buffer→staging-
image copy, and then the draw, which samples the staging image. -/
theorem C6_24bit_staging (w h : Nat) (tl sz ex : Nat × Nat)
    (s : FrontBlit.FrontBlitState) :
    FrontBlit.blitCmds true w h tl sz ex =
      [FrontBlit.Cmd.copyImageToBuffer, FrontBlit.Cmd.bindPipelineCompute,
       FrontBlit.Cmd.bindDescriptorSetsCompute,
       FrontBlit.Cmd.dispatch (86, 64, 1), FrontBlit.Cmd.copyBufferToImage,
       FrontBlit.Cmd.beginRenderPass, FrontBlit.Cmd.setViewport w h,
       FrontBlit.Cmd.bindPipelineGraphics,
       FrontBlit.Cmd.bindDescriptorSetsGraphics,
       FrontBlit.Cmd.bindDescriptorSetsGraphics,
       FrontBlit.Cmd.pushConstants tl sz ex, FrontBlit.Cmd.bindVertexBuffers,
       FrontBlit.Cmd.draw 4 1, FrontBlit.Cmd.endRenderPass] ∧
    FrontBlit.blitDispatchGrid = ((682 + 8 - 1) / 8, (512 + 8 - 1) / 8, 1) ∧
    FrontBlit.blitDispatchGrid = (86, 64, 1) ∧
    FrontBlit.blitSourceSel true = FrontBlit.SourceSel.staging ∧
    FrontBlit.blitSampled s true =
      (FrontBlit.blitExec s true).texture_24bit_image := by
  refine ⟨?_, by decide, by decide, rfl, rfl⟩
  norm_num [FrontBlit.blitCmds, FrontBlit.blitDispatchGrid,
    FrontBlit.VRAM_WIDTH_24BIT, FrontBlit.VRAM_BYTES_PER_ROW,
    FrontBlit.VRAM_WIDTH_WORDS, FrontBlit.VRAM_HEIGHT,
    FrontBlit.COMPUTE_LOCAL_SIZE_XY]

/-- C7: the vertex stage maps each quad vertex position `p` to texture
coordinate `((p + 1) / 2) * (size / extent) + topleft / extent`; with
`extent = (256, 256)`, `topleft = (0, 0)` the four corners map to
`{0, 1}²` for `size = (256, 256)` and to `{0, 1/2}²` (the top-left
quadrant) for `size = (128, 128)`. -/
theorem C7_vertex_region_mapping :
    (∀ pc : FrontBlit.PushConstantData, ∀ p ∈ FrontBlit.vertexPositions,
      FrontBlit.vsTexCoords pc p =
        (((p.1 + 1) / 2) * ((pc.size.1 : ℚ) / (pc.extent.1 : ℚ)) +
           (pc.topleft.1 : ℚ) / (pc.extent.1 : ℚ),
         ((p.2 + 1) / 2) * ((pc.size.2 : ℚ) / (pc.extent.2 : ℚ)) +
           (pc.topleft.2 : ℚ) / (pc.extent.2 : ℚ))) ∧
    FrontBlit.vertexPositions.map
        (FrontBlit.vsTexCoords ⟨(0, 0), (256, 256), (256, 256)⟩) =
      [(0, 0), (0, 1), (1, 0), (1, 1)] ∧
    FrontBlit.vertexPositions.map
        (FrontBlit.vsTexCoords ⟨(0, 0), (128, 128), (256, 256)⟩) =
      [(0, 0), (0, 1 / 2), (1 / 2, 0), (1 / 2, 1 / 2)] := by
  refine ⟨fun pc p _ => rfl, ?_, ?_⟩ <;>
    norm_num [FrontBlit.vertexPositions, FrontBlit.vsTexCoords]

/-- Witness for C7: the bottom-left vertex with the full-extent region
descriptor gets texture coordinate (0, 0). -/
theorem C7_vertex_region_mapping_witness :
    FrontBlit.vsTexCoords ⟨(0, 0), (256, 256), (256, 256)⟩ (-1, -1) = (0, 0) := by
  have h := C7_vertex_region_mapping.1 ⟨(0, 0), (256, 256), (256, 256)⟩ (-1, -1)
    (by norm_num [FrontBlit.vertexPositions])
  rw [h]
  norm_num

/-- Counterexample to C3 as stated: in an iteration whose acquire reports
out-of-date, `render_cycle` has already called the core's
`clock_full_video_frame` and drained the audio buffer before `render_frame`
performs the acquire, so the advance and the drain do happen in that
iteration. -/
theorem C3_claim_counterexample :
    Ps1.Ev.advanceCore ∈
      (Ps1.render_cycle ⟨true, false, 0⟩ Ps1.AcquireOutcome.outOfDate
        Ps1.SubmitOutcome.success).events ∧
    Ps1.Ev.drainAudio ∈
      (Ps1.render_cycle ⟨true, false, 0⟩ Ps1.AcquireOutcome.outOfDate
        Ps1.SubmitOutcome.success).events ∧
    (Ps1.render_cycle ⟨true, false, 0⟩ Ps1.AcquireOutcome.outOfDate
        Ps1.SubmitOutcome.success).events =
      [Ps1.Ev.syncInputs, Ps1.Ev.advanceCore, Ps1.Ev.drainAudio, Ps1.Ev.acquire] := by
  decide

/-- C3 (amended): in an iteration whose acquire reports out-of-date, the
core advance and audio drain happen exactly once, before the acquire, and
are not re-driven after it (the acquire is the iteration's last action —
no blit, present or submit); the out-of-date result is not surfaced as an
error; the recreate flag is set, and the next `render_frame` recreates the
swapchain before its acquire attempt. -/
theorem C3_out_of_date_recovery (s : Ps1.LoopState) (sub sub' : Ps1.SubmitOutcome)
    (acq' : Ps1.AcquireOutcome) (h : s.hasRenderContext = true) :
    (Ps1.render_cycle s Ps1.AcquireOutcome.outOfDate sub).fatal = false ∧
    (Ps1.render_cycle s Ps1.AcquireOutcome.outOfDate sub).state.recreateSwapchain = true ∧
    (Ps1.render_cycle s Ps1.AcquireOutcome.outOfDate sub).events.getLast? =
      some Ps1.Ev.acquire ∧
    (Ps1.render_cycle s Ps1.AcquireOutcome.outOfDate sub).events.count
      Ps1.Ev.advanceCore = 1 ∧
    (Ps1.render_cycle s Ps1.AcquireOutcome.outOfDate sub).events.count
      Ps1.Ev.drainAudio = 1 ∧
    Ps1.Ev.blit ∉ (Ps1.render_cycle s Ps1.AcquireOutcome.outOfDate sub).events ∧
    Ps1.Ev.present ∉ (Ps1.render_cycle s Ps1.AcquireOutcome.outOfDate sub).events ∧
    (Ps1.render_frame (Ps1.render_cycle s Ps1.AcquireOutcome.outOfDate sub).state
        acq' sub').events.take 2 =
      [Ps1.Ev.recreateSwapchain, Ps1.Ev.acquire] := by
  obtain ⟨hc, rec, gen⟩ := s
  subst h
  cases rec <;> cases acq' <;> cases sub' <;>
    simp [Ps1.render_cycle, Ps1.render_frame]

/-- Witness for C3 (amended): concrete instantiation from a fresh loop
state with an out-of-date acquire followed by a successful next frame. -/
theorem C3_out_of_date_recovery_witness :
    (Ps1.render_cycle ⟨true, false, 0⟩ Ps1.AcquireOutcome.outOfDate
      Ps1.SubmitOutcome.success).fatal = false ∧
    (Ps1.render_cycle ⟨true, false, 0⟩ Ps1.AcquireOutcome.outOfDate
      Ps1.SubmitOutcome.success).state.recreateSwapchain = true ∧
    (Ps1.render_frame
        (Ps1.render_cycle ⟨true, false, 0⟩ Ps1.AcquireOutcome.outOfDate
          Ps1.SubmitOutcome.success).state
        (Ps1.AcquireOutcome.success false) Ps1.SubmitOutcome.success).events.take 2 =
      [Ps1.Ev.recreateSwapchain, Ps1.Ev.acquire] := by
  have h := C3_out_of_date_recovery ⟨true, false, 0⟩ Ps1.SubmitOutcome.success
    Ps1.SubmitOutcome.success (Ps1.AcquireOutcome.success false) rfl
  exact ⟨h.1, h.2.1, h.2.2.2.2.2.2.2⟩

namespace Ps1

/-- Closed form of `InputLatch.set` with the `let` bindings expanded. -/
theorem InputLatch.set_eq (l : InputLatch) (source : Fin 2) (key : Fin 16)
    (pressed : Bool) :
    l.set source key pressed =
      if l.orAfter source key pressed ≠ l.combined key then
        (⟨l.setSources source key pressed,
          fun k => if k = key then l.orAfter source key pressed else l.combined k⟩,
         some (key, l.orAfter source key pressed))
      else
        (⟨l.setSources source key pressed, l.combined⟩, none) :=
  rfl

/-- The per-source state after `set` is the stored array. -/
theorem InputLatch.set_fst_sources (l : InputLatch) (source : Fin 2) (key : Fin 16)
    (pressed : Bool) :
    ((l.set source key pressed).1).sources = l.setSources source key pressed := by
  rw [InputLatch.set_eq]
  split <;> rfl

/-- The notification made by `set`. -/
theorem InputLatch.set_snd (l : InputLatch) (source : Fin 2) (key : Fin 16)
    (pressed : Bool) :
    (l.set source key pressed).2 =
      if l.orAfter source key pressed ≠ l.combined key then
        some (key, l.orAfter source key pressed)
      else none := by
  rw [InputLatch.set_eq]
  split <;> rfl

/-- The latched combined state of other keys is untouched by `set`. -/
theorem InputLatch.set_combined_ne (l : InputLatch) (source : Fin 2) (key k : Fin 16)
    (pressed : Bool) (hk : k ≠ key) :
    ((l.set source key pressed).1).combined k = l.combined k := by
  rw [InputLatch.set_eq]
  split <;> simp [hk]

/-- After `set`, the latched combined state of `key` is the recomputed OR
(using the latch invariant when no notification fired). -/
theorem InputLatch.set_combined_key (l : InputLatch) (source : Fin 2) (key : Fin 16)
    (pressed : Bool) :
    ((l.set source key pressed).1).combined key = l.orAfter source key pressed := by
  rw [InputLatch.set_eq]
  split
  · simp
  · next hsame =>
    push_neg at hsame
    simpa using hsame.symm

/-- `set` preserves the latch invariant. -/
theorem InputLatch.set_inv (l : InputLatch) (source : Fin 2) (key : Fin 16)
    (pressed : Bool) (hinv : l.inv) : ((l.set source key pressed).1).inv := by
  intro k
  by_cases hk : k = key
  · subst hk
    rw [InputLatch.set_combined_key l source k pressed,
      InputLatch.set_fst_sources]
    rfl
  · rw [InputLatch.set_combined_ne l source key k pressed hk,
      InputLatch.set_fst_sources]
    simp only [InputLatch.setSources]
    rw [hinv k]
    simp [hk]

/-- Releasing a key via `set source key false` notifies the core exactly
when the key was held by `source` and by no other source, and then with
value `false`. -/
theorem InputLatch.set_false_emission (l : InputLatch) (source : Fin 2) (key : Fin 16)
    (hinv : l.inv) :
    (l.set source key false).2 =
      if l.sources source key = true ∧ (∀ s, s ≠ source → l.sources s key = false)
      then some (key, false) else none := by
  rw [InputLatch.set_snd]
  have hc := hinv key
  fin_cases source <;>
    simp only [InputLatch.orAfter, InputLatch.setSources, Fin.forall_fin_two] <;>
    cases h0 : l.sources 0 key <;> cases h1 : l.sources 1 key <;>
    simp_all

/-- Asserting a key already held by another source does not notify. -/
theorem InputLatch.set_true_held (l : InputLatch) (source : Fin 2) (key : Fin 16)
    (hinv : l.inv) (hheld : ∃ s, s ≠ source ∧ l.sources s key = true) :
    (l.set source key true).2 = none := by
  rw [InputLatch.set_snd]
  obtain ⟨s, hs, hsk⟩ := hheld
  have hc := hinv key
  fin_cases source <;> fin_cases s <;>
    simp only [InputLatch.orAfter, InputLatch.setSources] at * <;>
    simp_all

/-- Generalized accumulator form of `clear_source`: folding
`set source · false` over distinct keys whose per-source state agrees
with a reference latch `l0` emits exactly the release notifications for
the keys `l0` holds via `source` alone. -/
theorem InputLatch.clear_fold (source : Fin 2) (l0 : InputLatch) :
    ∀ (ks : List (Fin 16)) (l : InputLatch) (acc : List (Fin 16 × Bool)),
      l.inv → ks.Nodup →
      (∀ k ∈ ks, ∀ s, l.sources s k = l0.sources s k) →
      (ks.foldl
          (fun a key =>
            let r := a.1.set source key false
            (r.1, a.2 ++ r.2.toList))
          (l, acc)).2 =
        acc ++ ks.filterMap (fun k =>
          if l0.sources source k = true ∧ (∀ s, s ≠ source → l0.sources s k = false)
          then some (k, false) else none) := by
  intro ks
  induction ks with
  | nil => intro l acc _ _ _; simp
  | cons k0 ks ih =>
    intro l acc hinv hnodup hagree
    have hnodup' := (List.nodup_cons.mp hnodup).2
    have hk0 := (List.nodup_cons.mp hnodup).1
    have hagree0 : ∀ s, l.sources s k0 = l0.sources s k0 :=
      fun s => hagree k0 (List.mem_cons_self _ _) s
    have hemit := InputLatch.set_false_emission l source k0 hinv
    have hcond_iff :
        (l.sources source k0 = true ∧ (∀ s, s ≠ source → l.sources s k0 = false)) ↔
        (l0.sources source k0 = true ∧ (∀ s, s ≠ source → l0.sources s k0 = false)) := by
      simp only [hagree0]
    have hinv' := InputLatch.set_inv l source k0 false hinv
    have hagree' : ∀ k ∈ ks, ∀ s, ((l.set source k0 false).1).sources s k = l0.sources s k := by
      intro k hk s
      rw [InputLatch.set_fst_sources]
      have hne : k ≠ k0 := fun he => hk0 (he ▸ hk)
      simp only [InputLatch.setSources, hne, and_false, if_false]
      exact hagree k (List.mem_cons_of_mem _ hk) s
    simp only [List.foldl_cons, List.filterMap_cons]
    by_cases hcond : l0.sources source k0 = true ∧ (∀ s, s ≠ source → l0.sources s k0 = false)
    · rw [if_pos hcond]
      have h2 : (l.set source k0 false).2 = some (k0, false) := by
        rw [hemit, if_pos (hcond_iff.mpr hcond)]
      have := ih ((l.set source k0 false).1) (acc ++ [(k0, false)]) hinv' hnodup' hagree'
      simp only [h2, Option.toList_some] at *
      rw [this]
      simp
    · rw [if_neg hcond]
      have h2 : (l.set source k0 false).2 = none := by
        rw [hemit, if_neg (fun hx => hcond (hcond_iff.mp hx))]
      have hrest := ih ((l.set source k0 false).1) acc hinv' hnodup' hagree'
      simp only [h2, Option.toList_none, List.append_nil]
      exact hrest

/-- The notifications emitted by `clear_source`. -/
theorem InputLatch.clear_source_emissions (l : InputLatch) (source : Fin 2)
    (hinv : l.inv) :
    (l.clear_source source).2 =
      (List.finRange 16).filterMap (fun k =>
        if l.sources source k = true ∧ (∀ s, s ≠ source → l.sources s k = false)
        then some (k, false) else none) := by
  unfold InputLatch.clear_source digitalKeys
  exact InputLatch.clear_fold source l (List.finRange 16) l [] hinv
    (List.nodup_finRange 16) (fun _ _ _ => rfl)

end Ps1

/-- C8: for the input latch, the core's key-state setter is called exactly
when the OR over all input sources of a button's pressed state changes,
and with the new combined value; the invariant `combined = OR of sources`
is preserved; a source asserting a button already held by another source
does not re-notify; and clearing a source (the focus-loss path for the
keyboard) notifies releases exactly for the buttons held by that source
alone. -/
theorem C8_input_latch_edges (l : Ps1.InputLatch) (source : Fin 2) (key : Fin 16)
    (pressed : Bool) (hinv : l.inv) :
    ((l.set source key pressed).1).inv ∧
    ((l.set source key pressed).2 =
      if l.orAfter source key pressed ≠ l.combined key
      then some (key, l.orAfter source key pressed) else none) ∧
    ((l.set source key pressed).1).combined key = l.orAfter source key pressed ∧
    ((∃ s, s ≠ source ∧ l.sources s key = true) →
      (l.set source key true).2 = none) ∧
    (∀ k v, (k, v) ∈ (l.clear_source source).2 ↔
      v = false ∧ l.sources source k = true ∧
        ∀ s, s ≠ source → l.sources s k = false) := by
  refine ⟨Ps1.InputLatch.set_inv l source key pressed hinv,
    Ps1.InputLatch.set_snd l source key pressed,
    Ps1.InputLatch.set_combined_key l source key pressed,
    fun hheld => Ps1.InputLatch.set_true_held l source key hinv hheld,
    ?_⟩
  intro k v
  rw [Ps1.InputLatch.clear_source_emissions l source hinv]
  simp only [List.mem_filterMap, List.mem_finRange, true_and]
  constructor
  · rintro ⟨a, ha⟩
    split at ha
    · next hcond =>
      simp only [Option.some.injEq, Prod.mk.injEq] at ha
      obtain ⟨rfl, rfl⟩ := ha
      exact ⟨rfl, hcond.1, hcond.2⟩
    · simp at ha
  · rintro ⟨rfl, hsrc, hothers⟩
    exact ⟨k, by rw [if_pos ⟨hsrc, hothers⟩]⟩

/-- Witness for C8: a latch whose keyboard source holds key 3 — the
controller asserting key 3 does not re-notify, and clearing the keyboard
source (focus loss) emits exactly the release of key 3. -/
theorem C8_input_latch_edges_witness :
    (Ps1.InputLatch.set
        ⟨fun s k => decide (s = 0 ∧ k = 3), fun k => decide (k = 3)⟩ 1 3 true).2 =
      none ∧
    ((3 : Fin 16), false) ∈
      (Ps1.InputLatch.clear_source
        ⟨fun s k => decide (s = 0 ∧ k = 3), fun k => decide (k = 3)⟩ 0).2 := by
  have h0 := C8_input_latch_edges
    ⟨fun s k => decide (s = 0 ∧ k = 3), fun k => decide (k = 3)⟩ 0 3 true
    (by unfold Ps1.InputLatch.inv; decide)
  have h1 := C8_input_latch_edges
    ⟨fun s k => decide (s = 0 ∧ k = 3), fun k => decide (k = 3)⟩ 1 3 true
    (by unfold Ps1.InputLatch.inv; decide)
  refine ⟨h1.2.2.2.1 ⟨0, by decide, by decide⟩, ?_⟩
  exact (h0.2.2.2.2 3 false).mpr (by decide)

/-- C9: `push_samples` never blocks (it is a total function of the queue
state): it enqueues the given samples and clears the whole queue when the
buffered bytes exceed `44100 * 2 * 4`, so after every call the buffered
audio is at most that bound (about one second). -/
theorem C9_audio_never_blocks (p : Audio.AudioPlayer) (n : Nat) (ok : Bool) :
    (p.push_samples n ok).queuedBytes ≤ Audio.MAX_BUFFER_BYTES ∧
    (ok = true → p.queuedBytes + 4 * n ≤ Audio.MAX_BUFFER_BYTES →
      p.push_samples n ok = ⟨p.queuedBytes + 4 * n⟩) ∧
    (ok = true → Audio.MAX_BUFFER_BYTES < p.queuedBytes + 4 * n →
      p.push_samples n ok = ⟨0⟩) := by
  refine ⟨?_, ?_, ?_⟩
  · unfold Audio.AudioPlayer.push_samples
    dsimp only
    split <;> split <;> simp <;> omega
  · rintro rfl hle
    unfold Audio.AudioPlayer.push_samples
    simp only [if_true]
    rw [if_neg (by omega)]
  · rintro rfl hgt
    unfold Audio.AudioPlayer.push_samples
    simp only [if_true]
    rw [if_pos (by omega)]

/-- Witness for C9: pushing one sample onto an empty queue buffers 4
bytes, and pushing enough to exceed one second clears the queue. -/
theorem C9_audio_never_blocks_witness :
    Audio.AudioPlayer.push_samples ⟨0⟩ 1 true = ⟨4⟩ ∧
    Audio.AudioPlayer.push_samples ⟨Audio.MAX_BUFFER_BYTES⟩ 1 true = ⟨0⟩ := by
  constructor
  · exact (C9_audio_never_blocks ⟨0⟩ 1 true).2.1 rfl
      (by norm_num [Audio.MAX_BUFFER_BYTES])
  · exact (C9_audio_never_blocks ⟨Audio.MAX_BUFFER_BYTES⟩ 1 true).2.2 rfl
      (by norm_num [Audio.MAX_BUFFER_BYTES])

/-- C10: the effective PS1 window scale is `max(scale, 1)`, the initial
window inner size is `(640, 480)` times that via `u32` saturating
multiplication (so no overflow for any scale), and `scale = 0` behaves
exactly like `scale = 1`. -/
theorem C10_window_scale (scale : Nat) :
    Ps1.ps1WindowSize scale =
      (Ps1.saturating_mul_u32 640 (max scale 1),
       Ps1.saturating_mul_u32 480 (max scale 1)) ∧
    Ps1.ps1WindowSize 0 = Ps1.ps1WindowSize 1 ∧
    (Ps1.ps1WindowSize scale).1 ≤ Ps1.U32_MAX ∧
    (Ps1.ps1WindowSize scale).2 ≤ Ps1.U32_MAX ∧
    Ps1.ps1WindowSize 1 = (640, 480) := by
  have hm : max (max scale 1) 1 = max scale 1 := by omega
  refine ⟨?_, by decide, ?_, ?_, by decide⟩ <;>
    simp [Ps1.ps1WindowSize, Ps1.initWindowSize, Ps1.runStoredScale,
      Ps1.saturating_mul_u32, Ps1.DEFAULT_WIDTH, Ps1.DEFAULT_HEIGHT, hm]
